import Mathlib

/-!
Verification development for the nginx log-analyzer pipeline
(`log_analyzer.py`): a shallow embedding of its core functions
(`check_float`, `parse_line`, `median`, `parse_log`, `calc_stat`,
`parse_filename_extension`, `find_log_files`, and the post-parse
control flow of `main`), together with theorems settling the
specification claims.

Modelling conventions:
* Python floats are modelled as exact rationals (`ℚ`).
* File-system effects (`os.listdir`, `Path.is_dir`, `Path.is_file`)
  are passed in as explicit arguments.
* Python exceptions that escape `main` are modelled by an explicit
  outcome type.
-/

namespace LogAnalyzer

/-- Whitespace in the sense of Python's `str.strip()` default
(restricted to the ASCII whitespace actually occurring in log data). -/
def isSpaceChar (c : Char) : Bool :=
  c = ' ' ∨ c = '\t' ∨ c = '\n' ∨ c = '\r' ∨ c = '\x0b' ∨ c = '\x0c'

/-- Model of Python `str.strip()`: drop whitespace from both ends. -/
def stripChars (cs : List Char) : List Char :=
  ((cs.dropWhile isSpaceChar).reverse.dropWhile isSpaceChar).reverse

/-- Model of Python `str.split(sep)` with a one-character separator:
every occurrence of `sep` is a boundary, so consecutive separators
produce empty fields (`"a  b".split(' ') = ['a', '', 'b']`). -/
def splitOnChar (sep : Char) : List Char → List (List Char)
  | [] => [[]]
  | c :: rest =>
      let r := splitOnChar sep rest
      if c = sep then [] :: r
      else
        match r with
        | [] => [[c]]
        | h :: t => (c :: h) :: t

/-- Digit list to natural number, most significant first. -/
def digitsToNat (cs : List Char) : Nat :=
  cs.foldl (fun acc c => 10 * acc + (c.toNat - 48)) 0

/-- Parse a nonempty run of ASCII digits. -/
def parseDigits (cs : List Char) : Option Nat :=
  if cs ≠ [] ∧ cs.all Char.isDigit then some (digitsToNat cs) else none

/-- Mantissa of a Python float literal: `digits`, `digits.digits`,
`digits.`, or `.digits` (at least one digit overall). -/
def parseMantissa (cs : List Char) : Option ℚ :=
  match cs.splitOn '.' with
  | [ip] =>
      match parseDigits ip with
      | some n => some (n : ℚ)
      | none => none
  | [ip, fp] =>
      if (ip ≠ [] ∨ fp ≠ []) ∧ ip.all Char.isDigit ∧ fp.all Char.isDigit then
        some ((digitsToNat ip : ℚ) + (digitsToNat fp : ℚ) / (10 : ℚ) ^ fp.length)
      else none
  | _ => none

/-- Split a float literal at the first exponent marker `e` or `E`. -/
def splitExp : List Char → List Char × Option (List Char)
  | [] => ([], none)
  | c :: cs =>
      if c = 'e' ∨ c = 'E' then ([], some cs)
      else
        let r := splitExp cs
        (c :: r.1, r.2)

/-- Optional sign followed by the rest. Returns (sign, rest); sign is
`-1` for a leading minus, `1` otherwise. -/
def stripSign : List Char → Int × List Char
  | '+' :: cs => (1, cs)
  | '-' :: cs => (-1, cs)
  | cs => (1, cs)

/-- Exponent part: optional sign, then nonempty digits. -/
def parseExp (cs : List Char) : Option Int :=
  let (sg, rest) := stripSign cs
  match parseDigits rest with
  | some n => some (sg * n)
  | none => none

/-- Scale a rational by a power of ten (Python float exponent). -/
def scalePow10 (q : ℚ) (e : Int) : ℚ :=
  if 0 ≤ e then q * (10 : ℚ) ^ e.toNat else q / (10 : ℚ) ^ (-e).toNat

/-- Model of `check_float` (`log_analyzer.py:136-145`): `float(v)` on a
string, returning `none` where Python raises `ValueError`.  Covers the
decimal-literal forms (sign, integer/fraction digits, optional
exponent); Python's extra spellings (`inf`, `nan`, underscore
separators) do not occur in this repository's data and are rejected. -/
def check_float (s : String) : Option ℚ :=
  let cs := stripChars s.toList
  let (sg, rest) := stripSign cs
  let (mant, ex) := splitExp rest
  match parseMantissa mant with
  | none => none
  | some m =>
      match ex with
      | none => some ((sg : ℚ) * m)
      | some ecs =>
          match parseExp ecs with
          | some e => some (scalePow10 ((sg : ℚ) * m) e)
          | none => none

/-- Fields of a log line: `line.strip().split(' ')` from
`log_analyzer.py:156`, as strings. -/
def lineFields (line : String) : List String :=
  (splitOnChar ' ' (stripChars line.toList)).map String.mk

/-- Model of `parse_line` (`log_analyzer.py:148-164`): strip the line,
split on single spaces, require at least 9 fields, take field index 7
as the URL and the last field parsed as a float as the duration;
otherwise return the `(None, None)` sentinel. -/
def parse_line (line : String) : Option String × Option ℚ :=
  let value_list := lineFields line
  if value_list.length < 9 then (none, none)
  else
    let url := value_list.getD 7 ""
    match check_float (value_list.getLastD "") with
    | some duration => (some url, some duration)
    | none => (none, none)

/-- Model of `median` (`log_analyzer.py:121-133`): `None` on an empty
list; for odd length the element at index `n / 2` of the ascending
sort; for even length the sum of the slice `[n/2 - 1 : n/2 + 1]`
divided by two.  Python's `sorted` is modelled by `List.insertionSort`
with `≤` (any stable ascending sort; on numbers the result is unique). -/
def median (lst : List ℚ) : Option ℚ :=
  let n := lst.length
  if n < 1 then none
  else if n % 2 = 1 then some ((List.insertionSort (· ≤ ·) lst).getD (n / 2) 0)
  else some ((((List.insertionSort (· ≤ ·) lst).drop (n / 2 - 1)).take 2).sum / 2)

/-! ### Aggregator: `parse_log` (`log_analyzer.py:167-198`) -/

/-- Truthiness of the URL slot as tested by `if url:` on
`log_analyzer.py:184`: `None` and the empty string are falsy. -/
def truthy : Option String → Bool
  | none => false
  | some s => s != ""

/-- Append a duration to a URL's sequence in the grouping dict
(`log_analyzer.py:186-189`), creating the entry on first encounter.
The association list preserves Python dict insertion order. -/
def appendDuration : List (String × List ℚ) → String → ℚ → List (String × List ℚ)
  | [], url, d => [(url, [d])]
  | (k, ds) :: rest, url, d =>
      if k = url then (k, ds ++ [d]) :: rest
      else (k, ds) :: appendDuration rest url d

/-- State threaded through the `for line in log_file` loop of
`parse_log`: the grouping dict `data`, `all_time`, `count` and
`error_count` (`log_analyzer.py:175-178`). -/
structure ParseState where
  data : List (String × List ℚ)
  all_time : ℚ
  count : ℕ
  error_count : ℕ
deriving DecidableEq

/-- One iteration of the `parse_log` loop (`log_analyzer.py:181-191`):
increment `count`, parse the line; on a truthy URL accumulate the
duration into `all_time` and the grouping, otherwise increment
`error_count`. -/
def parseLogStep (st : ParseState) (line : String) : ParseState :=
  let p := parse_line line
  let st1 : ParseState := { st with count := st.count + 1 }
  if truthy p.1 then
    { st1 with
      all_time := st1.all_time + p.2.getD 0,
      data := appendDuration st1.data (p.1.getD "") (p.2.getD 0) }
  else
    { st1 with error_count := st1.error_count + 1 }

/-- Sort key relation for `sorted(data.items(), key=lambda k: sum(k[1]),
reverse=True)` on `log_analyzer.py:198`: descending by sum of
durations.  Python's sort is stable; `List.insertionSort` with this
relation is the stable descending sort (ties keep encounter order). -/
def byTimeDesc (a b : String × List ℚ) : Prop := b.2.sum ≤ a.2.sum

instance : DecidableRel byTimeDesc := fun a b =>
  inferInstanceAs (Decidable (b.2.sum ≤ a.2.sum))

/-- Model of `parse_log` (`log_analyzer.py:167-198`) on the line stream
of the selected file (file opening and the `except` branch that
returns `(None, None, None, None)` on I/O failure are external to this
pure model; see `main_after_parse` for the `None` case downstream).
Returns (grouping sorted by descending total duration, total duration,
line count, error count). -/
def parse_log (lines : List String) :
    List (String × List ℚ) × ℚ × ℕ × ℕ :=
  let st := lines.foldl parseLogStep ⟨[], 0, 0, 0⟩
  (List.insertionSort byTimeDesc st.data, st.all_time, st.count, st.error_count)

/-! ### StatsCalculator: `calc_stat` (`log_analyzer.py:201-233`) -/

/-- Round-half-to-even to an integer, the rounding of Python's builtin
`round` (on the exact rational values modelled here). -/
def roundHalfEven (q : ℚ) : ℤ :=
  let f := ⌊q⌋
  let r := q - (f : ℚ)
  if r < 1 / 2 then f
  else if 1 / 2 < r then f + 1
  else if f % 2 = 0 then f else f + 1

/-- Model of Python `round(x, 3)` on exact rationals. -/
def round3 (q : ℚ) : ℚ := (roundHalfEven (q * 1000) : ℚ) / 1000

/-- Maximum of a duration list (`max(data[r])` on
`log_analyzer.py:221`; Python raises on an empty list, which cannot
happen for grouping entries, each created with one element). -/
def listMax (ds : List ℚ) : ℚ :=
  match ds.maximum with
  | some m => m
  | none => 0

/-- One record appended to `d` in the `calc_stat` loop
(`log_analyzer.py:218-227`).  As in the source, `time_avg` and
`time_perc` are computed from the already-rounded `time_sum`. -/
structure UrlStat where
  url : String
  count : ℕ
  count_perc : ℚ
  time_avg : ℚ
  time_max : ℚ
  time_med : ℚ
  time_perc : ℚ
  time_sum : ℚ
deriving DecidableEq

/-- The stat record for one grouping entry (`log_analyzer.py:218-227`). -/
def urlStatOf (all_count all_time : ℚ) (r : String) (ds : List ℚ) : UrlStat :=
  let count := ds.length
  let time_sum := round3 ds.sum
  { url := r
    count := count
    count_perc := round3 ((count : ℚ) * 100 / all_count)
    time_avg := round3 (time_sum / (count : ℚ))
    time_max := round3 (listMax ds)
    time_med := round3 ((median ds).getD 0)
    time_perc := round3 (time_sum * 100 / all_time)
    time_sum := time_sum }

/-- The `for r in data` loop of `calc_stat` with its counter `i`
(`log_analyzer.py:212-231`): the `if i == max_size: break` test runs
AFTER the record for `r` has been appended, and `i` starts at 0. -/
def calcLoop (all_count all_time : ℚ) (max_size : ℕ) :
    List (String × List ℚ) → ℕ → List UrlStat
  | [], _ => []
  | (r, ds) :: rest, i =>
      urlStatOf all_count all_time r ds ::
        (if i = max_size then [] else calcLoop all_count all_time max_size rest (i + 1))

/-- Model of `calc_stat` (`log_analyzer.py:201-233`): `None` on an
empty grouping, otherwise the loop's record list (the final
`json.dumps` serialization is external formatting and not modelled).
The `data is None` guard corresponds to the `none` case handled before
this function is reached. -/
def calc_stat (data : List (String × List ℚ)) (all_count all_time : ℚ)
    (report_size : ℕ) : Option (List UrlStat) :=
  if data.length = 0 then none
  else
    let max_size := if data.length > report_size then report_size else data.length
    some (calcLoop all_count all_time max_size data 0)

/-! ### Orchestration after parsing: `main` (`log_analyzer.py:317-330`) -/

/-- Python exceptions that can escape `main`. -/
inductive PyError where
  | typeError
  | zeroDivisionError
deriving DecidableEq

/-- Outcome of the part of `main` after `find_log_files` selected a
file: either statistics are handed to the report sink, or `main`
returns without a report, or an exception propagates uncaught (there
is no top-level handler around `main(config)` on
`log_analyzer.py:333-334`). -/
inductive MainOutcome where
  | report (stats : List UrlStat)
  | noReport
  | crash (e : PyError)
deriving DecidableEq

/-- Model of `main` from line 319 on, given the result of `parse_log`
(`none` models the `(None, None, None, None)` returned on an I/O
failure).  Line-by-line translation of `log_analyzer.py:319-328`:
* with `None` totals, `error_percent = (error_count / count) * 100`
  on line 320 raises `TypeError` (uncaught);
* with `count == 0` (log file with zero lines), line 320 raises
  `ZeroDivisionError` (uncaught);
* if `error_percent > cfg['ERROR_PERCENT']`, `main` returns with no
  report (lines 323-326);
* otherwise line 327 calls `calc_stat(data, all_time,
  cfg['REPORT_SIZE'])`, which passes 3 positional arguments to the
  4-parameter `calc_stat(data, all_count, all_time, report_size)`
  (`log_analyzer.py:201`), so Python raises `TypeError: calc_stat()
  missing 1 required positional argument` before any statistics are
  computed — the `report` outcome is unreachable in the code as
  written. -/
def main_after_parse (error_percent_cfg : ℚ) :
    Option (List (String × List ℚ) × ℚ × ℕ × ℕ) → MainOutcome
  | none => .crash .typeError
  | some (_data, _all_time, count, error_count) =>
      if count = 0 then .crash .zeroDivisionError
      else if ((error_count : ℚ) / (count : ℚ)) * 100 > error_percent_cfg then .noReport
      else .crash .typeError

/-- The pipeline of `main` on a successfully opened log file: feed the
`parse_log` result into the post-parse control flow. -/
def run_pipeline (error_percent_cfg : ℚ) (lines : List String) : MainOutcome :=
  main_after_parse error_percent_cfg (some (parse_log lines))

/-! ### LogScanner: `parse_filename_extension` and `find_log_files`
(`log_analyzer.py:256-303`) -/

/-- Leftmost match of the regex `log-(?P<dateandtime>\d{8})`
(`log_analyzer.py:262-263`): scan positions left to right and return
the first run of 8 digits preceded by `log-`. -/
def findLogDate : List Char → Option (List Char)
  | 'l' :: 'o' :: 'g' :: '-' :: rest =>
      let d8 := rest.take 8
      if d8.length = 8 ∧ d8.all Char.isDigit then some d8
      else findLogDate ('o' :: 'g' :: '-' :: rest)
  | _ :: cs => findLogDate cs
  | [] => none

/-- Gregorian leap year, as in Python's `datetime`. -/
def isLeapYear (y : ℕ) : Bool := y % 4 = 0 ∧ (y % 100 ≠ 0 ∨ y % 400 = 0)

/-- Days in a month of the proleptic Gregorian calendar. -/
def daysInMonth (y m : ℕ) : ℕ :=
  if m = 2 then (if isLeapYear y then 29 else 28)
  else if m = 4 ∨ m = 6 ∨ m = 9 ∨ m = 11 then 30
  else 31

/-- Validity of an 8-digit string for
`datetime.strptime(st, '%Y%m%d')` (`log_analyzer.py:266`): four-digit
year at least 1, two-digit month 1..12, two-digit day within the
month. -/
def validDate8 (ds : List Char) : Bool :=
  let y := digitsToNat (ds.take 4)
  let m := digitsToNat ((ds.drop 4).take 2)
  let d := digitsToNat (ds.drop 6)
  1 ≤ y ∧ 1 ≤ m ∧ m ≤ 12 ∧ 1 ≤ d ∧ d ≤ daysInMonth y m

/-- Model of `parse_filename_extension` (`log_analyzer.py:256-269`):
search the extension for `log-` followed by 8 digits, validate them as
a calendar date, and return `(YYYY, MM, DD)`; `None` both when the
regex finds no match (the `x.group` call raises) and when `strptime`
raises. -/
def parse_filename_extension (extension : String) :
    Option (String × String × String) :=
  match findLogDate extension.toList with
  | none => none
  | some ds =>
      if validDate8 ds then
        some (String.mk (ds.take 4), String.mk ((ds.drop 4).take 2),
          String.mk (ds.drop 6))
      else none

/-- One row of the candidate list built by `find_log_files`
(`log_analyzer.py:293-298`). -/
structure LogRow where
  date : String
  log_file : String
  rep_file : String
  gz : Bool
deriving DecidableEq

/-- The row for one directory entry (`log_analyzer.py:288-298`): split
the name on dots (for `os.listdir` entries `os.path.basename` is the
identity), require more than one dot-part with the first equal to
`nginx-access-ui`, and a valid date inside the second part; `gz` is
set only for exactly three parts whose last is `gz`. -/
def rowOf (log_folder rep_folder filename : String) : Option LogRow :=
  let fname := (splitOnChar '.' filename.toList).map String.mk
  if fname.length > 1 ∧ fname.getD 0 "" = "nginx-access-ui" then
    match parse_filename_extension (fname.getD 1 "") with
    | some (y, m, d) =>
        some { date := y ++ m ++ d
               log_file := log_folder ++ filename
               rep_file := rep_folder ++ ("report-" ++ y ++ "." ++ m ++ "." ++ d ++ ".html")
               gz := fname.length = 3 ∧ fname.getD 2 "" = "gz" }
    | none => none
  else none

/-- Lexicographic order on char lists, the order Python uses to compare
the 8-digit `date` strings of rows. -/
def lexLeChars : List Char → List Char → Bool
  | [], _ => true
  | _ :: _, [] => false
  | a :: as, b :: bs =>
      if a.toNat < b.toNat then true
      else if b.toNat < a.toNat then false
      else lexLeChars as bs

/-- Comparison for `sorted(result, key=lambda k: k['date'],
reverse=True)` (`log_analyzer.py:299`): `a` may come before `b` when
`a`'s date is at least `b`'s.  Python's sort is stable, so among equal
dates the earlier listing entry stays first. -/
def dateGeB (a b : LogRow) : Bool := lexLeChars b.date.toList a.date.toList

/-- Result of `find_log_files`: `notAFolder` models the `None` returned
when a directory check fails (`log_analyzer.py:279-284`), `noCandidate`
the empty dict returned when no entry matches or the newest report
already exists (`log_analyzer.py:300-303`). -/
inductive FindResult where
  | notAFolder
  | noCandidate
  | found (row : LogRow)
deriving DecidableEq

/-- Model of `find_log_files` (`log_analyzer.py:272-303`).  The
file-system observations are explicit inputs: `logDirOk` and `repDirOk`
are the two `Path(...).is_dir()` checks, `listing` is `os.listdir`'s
result in scan order, and `reportExists` is `Path(...).is_file()` on
the winning row's report path. -/
def find_log_files (logDirOk repDirOk : Bool) (listing : List String)
    (reportExists : String → Bool) (log_folder rep_folder : String) : FindResult :=
  if logDirOk = false then .notAFolder
  else if repDirOk = false then .notAFolder
  else
    let result := listing.filterMap (rowOf log_folder rep_folder)
    match List.insertionSort (fun a b => dateGeB a b = true) result with
    | [] => .noCandidate
    | best :: _ => if reportExists best.rep_file then .noCandidate else .found best

/-- First element of a row list achieving the maximal date: the row
that stable descending sorting by date brings to the front. -/
def firstMaxByDate : List LogRow → Option LogRow
  | [] => none
  | a :: l =>
      match firstMaxByDate l with
      | none => some a
      | some b => if dateGeB a b then some a else some b

/-! ### Concrete inputs from the repository's spec and test suite -/

/-- The valid nginx log line from `test_log_analyzer.py:23-25` (note
the two consecutive spaces after the first `-`, which produce an empty
field at index 2). -/
def repoTestLine : String :=
  "1.196.116.32 -  - [29/Jun/2017:03:50:22 +0300] \"GET /api/v2/banner/25019354 HTTP/1.1\" 200 927 \"-\" \"Lynx/2.8.8dev.9 libwww-FM/2.14 SSL-MM/1.4.1 GNUTLS/2.10.5\" \"-\" \"1498697422-2190034393-4708-9752759\" \"dc7161be3\" 0.390"

/-- The example line exactly as written in the spec (single spaces
between the two dashes, literal `...` eliding the middle fields). -/
def specExampleLine : String :=
  "1.196.116.32 - - [29/Jun/2017:03:50:22 +0300] \"GET /api/v2/banner/25019354 HTTP/1.1\" 200 927 \"-\" ... 0.390"

/-- First malformed line from `test_log_analyzer.py:31` (fewer than 9
fields). -/
def badFieldsLine : String :=
  "1.99.174.176 3b81f63526fa8  - [29/Jun/2017:03:50:22 +0300] "

/-- Second malformed line from `test_log_analyzer.py:32-34` (its last
field `vvv` is not a number). -/
def badFloatLine : String :=
  "1.99.174.176 3b81f63526fa8  - [29/Jun/2017:03:50:22 +0300] \"GET /api/1/photogenic_banners/list/?server_name=WIN7RB4 HTTP/1.1\" 200 12 \"-\" \"Python-urllib/2.7\" \"-\" \"1498697422-32900793-4708-9752770\" \"-\" 0.133 vvv"

/-- A 9-field line whose 8th field (index 7) is empty because of two
consecutive spaces, with a numeric last field. -/
def emptyUrlLine : String := "a b c d e f g  1"

/-- A directory listing with two log files carrying the same date:
a plain one first, a gzipped one last. -/
def tieListing : List String :=
  ["nginx-access-ui.log-20170630", "nginx-access-ui.log-20170630.gz"]

/-! ### Shared helper lemmas -/

/-- Evaluation of `check_float` on the duration field of the example
lines. -/
lemma check_float_0_390 : check_float "0.390" = some ((39 : ℚ) / 100) := by
  have h : check_float "0.390" =
      some (((1 : ℤ) : ℚ) * (((0 : ℕ) : ℚ) + ((390 : ℕ) : ℚ) / (10 : ℚ) ^ 3)) := rfl
  rw [h]
  norm_num

/-- Evaluation of `check_float` on the literal `1`. -/
lemma check_float_one : check_float "1" = some (1 : ℚ) := by
  have h : check_float "1" = some (((1 : ℤ) : ℚ) * ((1 : ℕ) : ℚ)) := rfl
  rw [h]
  norm_num

/-- Successful branch of `parse_line`: with at least 9 fields and a
parseable last field, the result is field 7 and the parsed duration. -/
lemma parse_line_success (line : String) (d : ℚ)
    (h9 : ¬ (lineFields line).length < 9)
    (hf : check_float ((lineFields line).getLastD "") = some d) :
    parse_line line = (some ((lineFields line).getD 7 ""), some d) := by
  simp only [parse_line]
  rw [if_neg h9, hf]

/-- Two-element slice of a list as its two entries. -/
lemma take_two_drop (s : List ℚ) (k : ℕ) (hk : k + 1 < s.length) :
    (s.drop k).take 2 = [s.getD k 0, s.getD (k + 1) 0] := by
  induction s generalizing k with
  | nil => simp at hk
  | cons a t ih =>
      cases k with
      | zero =>
          cases t with
          | nil => simp at hk
          | cons b t' => simp [List.getD]
      | succ k' =>
          simpa using ih k' (by simpa using hk)

/-! ### Claim C10: the median algorithm -/

/-- Claim C10: for every non-empty sequence, `median` sorts ascending
and takes the element at index `n / 2` when `n` is odd and the average
of the two central elements when `n` is even; in particular
`median [1] = 1`, `median [1,2,3,4] = 2.5` and
`median [1,2,3,4,5] = 3`. -/
theorem median_sorted_characterization (lst : List ℚ) (h : lst ≠ []) :
    (lst.length % 2 = 1 →
        median lst = some ((List.insertionSort (· ≤ ·) lst).getD (lst.length / 2) 0)) ∧
    (lst.length % 2 = 0 →
        median lst = some (((List.insertionSort (· ≤ ·) lst).getD (lst.length / 2 - 1) 0 +
          (List.insertionSort (· ≤ ·) lst).getD (lst.length / 2) 0) / 2)) ∧
    median [(1 : ℚ)] = some 1 ∧
    median [(1 : ℚ), 2, 3, 4] = some (5 / 2) ∧
    median [(1 : ℚ), 2, 3, 4, 5] = some 3 := by
  have hn : ¬ lst.length < 1 := by
    cases lst with
    | nil => exact absurd rfl h
    | cons a t => simp
  refine ⟨?_, ?_, ?_, ?_, ?_⟩
  · intro hodd
    simp only [median]
    rw [if_neg hn, if_pos hodd]
  · intro heven
    have hlen : (List.insertionSort (· ≤ ·) lst).length = lst.length :=
      List.length_insertionSort _ _
    have hk : lst.length / 2 - 1 + 1 < (List.insertionSort (· ≤ ·) lst).length := by
      rw [hlen]; omega
    simp only [median]
    rw [if_neg hn, if_neg (by omega : ¬ lst.length % 2 = 1)]
    rw [take_two_drop _ _ hk]
    have he : lst.length / 2 - 1 + 1 = lst.length / 2 := by omega
    rw [he]
    simp
  · rfl
  · have h4 : median [(1:ℚ),2,3,4] = some ((2 + (3 + 0) : ℚ) / 2) := rfl
    rw [h4]; norm_num
  · rfl

/-- Witness for C10: the odd-length characterization evaluated at the
singleton list. -/
theorem median_sorted_characterization_witness :
    median [(1 : ℚ)] = some ((List.insertionSort (· ≤ ·) [(1:ℚ)]).getD 0 0) :=
  (median_sorted_characterization [(1 : ℚ)] (by decide)).1 (by decide)

/-! ### Claim C7: rejection of malformed lines -/

/-- Claim C7: a line with fewer than 9 space-separated fields, or whose
last field does not parse as a number, makes `parse_line` return the
`(None, None)` sentinel with no partial result. -/
theorem parse_line_rejects_malformed (line : String)
    (h : (lineFields line).length < 9 ∨
      check_float ((lineFields line).getLastD "") = none) :
    parse_line line = (none, none) := by
  simp only [parse_line]
  rcases h with h | h
  · rw [if_pos h]
  · by_cases h9 : (lineFields line).length < 9
    · rw [if_pos h9]
    · rw [if_neg h9, h]

/-- Witness for C7: both malformed lines of the repository's test
suite are rejected. -/
theorem parse_line_rejects_malformed_witness :
    parse_line badFieldsLine = (none, none) ∧
    parse_line badFloatLine = (none, none) :=
  ⟨parse_line_rejects_malformed badFieldsLine (Or.inl (by decide)),
   parse_line_rejects_malformed badFloatLine (Or.inr rfl)⟩

/-! ### Claim C6: extraction from well-formed lines -/

/-- Counterexample for C6: on the spec's example line as literally
written (single spaces around the dashes and a literal `...` field),
field index 7 is `HTTP/1.1"`, not `/api/v2/banner/25019354`, so
`parse_line` does not return the pair the claim asserts. -/
theorem parse_line_spec_example_counterexample :
    parse_line specExampleLine ≠
      (some "/api/v2/banner/25019354", some ((39 : ℚ) / 100)) := by
  intro hEq
  have h1 : (parse_line specExampleLine).1 = some "HTTP/1.1\"" := rfl
  rw [hEq] at h1
  exact absurd h1 (by decide)

/-- Claim C6 (amended): for every line with at least 9 space-separated
fields and a numeric last field, `parse_line` returns field index 7 as
the URL and the last field's value as the duration; the spec's example
pair `("/api/v2/banner/25019354", 0.390)` is produced on the actual
log line of the repository's test suite (which has two consecutive
spaces after the first dash), not on the line as transcribed in the
spec. -/
theorem parse_line_extracts_field7 (line : String) (d : ℚ)
    (h9 : ¬ (lineFields line).length < 9)
    (hf : check_float ((lineFields line).getLastD "") = some d) :
    parse_line line = (some ((lineFields line).getD 7 ""), some d) ∧
    parse_line repoTestLine = (some "/api/v2/banner/25019354", some ((39 : ℚ) / 100)) := by
  constructor
  · exact parse_line_success line d h9 hf
  · have h : parse_line repoTestLine =
        (some "/api/v2/banner/25019354", check_float "0.390") := rfl
    rw [h, check_float_0_390]

/-- Witness for C6: the general extraction applied to the test-suite
line. -/
theorem parse_line_extracts_field7_witness :
    parse_line repoTestLine = (some "/api/v2/banner/25019354", some ((39 : ℚ) / 100)) := by
  have hf : check_float ((lineFields repoTestLine).getLastD "") = some ((39 : ℚ) / 100) := by
    have h : (lineFields repoTestLine).getLastD "" = "0.390" := rfl
    rw [h]
    exact check_float_0_390
  have h7 : (lineFields repoTestLine).getD 7 "" = "/api/v2/banner/25019354" := rfl
  have := (parse_line_extracts_field7 repoTestLine ((39 : ℚ) / 100) (by decide) hf).1
  rw [h7] at this
  exact this

/-! ### Claim C9: empty URL fields count as errors -/

/-- Claim C9: a line with at least 9 fields whose field index 7 is the
empty string and whose last field parses still succeeds in
`parse_line` (empty URL), but the aggregation step counts it as an
error and leaves the grouping and the running total untouched. -/
theorem empty_url_counted_as_error (line : String) (d : ℚ) (st : ParseState)
    (h9 : ¬ (lineFields line).length < 9)
    (h7 : (lineFields line).getD 7 "" = "")
    (hf : check_float ((lineFields line).getLastD "") = some d) :
    parse_line line = (some "", some d) ∧
    parseLogStep st line =
      { st with count := st.count + 1, error_count := st.error_count + 1 } := by
  have h1 : parse_line line = (some "", some d) := by
    have := parse_line_success line d h9 hf
    rwa [h7] at this
  refine ⟨h1, ?_⟩
  simp only [parseLogStep, h1, truthy]
  norm_num

/-- Witness for C9: the double-space line `"a b c d e f g  1"`. -/
theorem empty_url_counted_as_error_witness :
    parse_line emptyUrlLine = (some "", some (1 : ℚ)) ∧
    parseLogStep ⟨[], 0, 0, 0⟩ emptyUrlLine = ⟨[], 0, 1, 1⟩ := by
  have hf : check_float ((lineFields emptyUrlLine).getLastD "") = some (1 : ℚ) := by
    have h : (lineFields emptyUrlLine).getLastD "" = "1" := rfl
    rw [h]
    exact check_float_one
  have h := empty_url_counted_as_error emptyUrlLine 1 ⟨[], 0, 0, 0⟩ (by decide) rfl hf
  exact ⟨h.1, by rw [h.2]⟩

/-! ### Claim C4: the error-rate threshold gate -/

/-- Claim C4: whenever the aggregated counts have an error percentage
strictly above the configured maximum, `main` returns before invoking
`calc_stat`: no statistics are computed and no report file is written
(`MainOutcome.noReport`). -/
theorem error_rate_gate_blocks_report (cfg : ℚ) (lines : List String)
    (hc : (parse_log lines).2.2.1 ≠ 0)
    (hg : (((parse_log lines).2.2.2 : ℚ) / ((parse_log lines).2.2.1 : ℚ)) * 100 > cfg) :
    run_pipeline cfg lines = MainOutcome.noReport := by
  unfold run_pipeline
  rcases hp : parse_log lines with ⟨d, t, c, e⟩
  rw [hp] at hc hg
  simp only at hc hg
  simp only [main_after_parse]
  rw [if_neg hc, if_pos hg]

/-- Witness for C4: a single unparseable line gives a 100 percent
error rate, above the default threshold 32.5, and no report. -/
theorem error_rate_gate_blocks_report_witness :
    run_pipeline (325 / 10) ["x"] = MainOutcome.noReport :=
  error_rate_gate_blocks_report (325 / 10) ["x"] (by decide)
    (by
      have h1 : (parse_log ["x"]).2.2.2 = 1 := rfl
      have h2 : (parse_log ["x"]).2.2.1 = 1 := rfl
      rw [h1, h2]
      norm_num)

/-! ### Claim C1: how `main` invokes the statistics calculation -/

/-- Claim C1 (code bug): on a run whose single line parses successfully
(error rate 0, within the default threshold 32.5), `main` does not
invoke `calc_stat` with `(grouping, lineCount, totalDuration,
reportSize)` as the claim describes: line 327 passes only three of the
four required positional arguments (`data, all_time,
cfg['REPORT_SIZE']`), so Python raises an uncaught `TypeError` and no
`UrlStat` is ever produced. -/
theorem main_within_threshold_crashes_typeerror :
    run_pipeline (325 / 10) [repoTestLine] = MainOutcome.crash PyError.typeError := by
  have hc : (parse_log [repoTestLine]).2.2.1 = 1 := rfl
  have he : (parse_log [repoTestLine]).2.2.2 = 0 := rfl
  unfold run_pipeline
  rcases hp : parse_log [repoTestLine] with ⟨d, t, c, e⟩
  rw [hp] at hc he
  simp only at hc he
  subst hc he
  simp only [main_after_parse]
  norm_num

/-! ### Claim C3: failure handling of the whole pipeline -/

/-- Claim C3 (code bug): failures do not all end in a clean diagnostic
termination.  A selected log file with zero lines gives `count = 0`
and line 320 (`error_percent = (error_count / count) * 100`) raises an
uncaught `ZeroDivisionError`; when `parse_log` signals failure by
returning `(None, None, None, None)`, the same line raises an uncaught
`TypeError`; there is no `EmptyResultError` path and no top-level
handler around `main(config)`. -/
theorem main_failures_crash_uncaught :
    (parse_log []).2.2.1 = 0 ∧
    run_pipeline (325 / 10) [] = MainOutcome.crash PyError.zeroDivisionError ∧
    main_after_parse (325 / 10) none = MainOutcome.crash PyError.typeError :=
  ⟨rfl, rfl, rfl⟩

/-! ### Claim C2: ordering and truncation of the stats report -/

/-- Claim C2 (code bug): `calc_stat` emits `report_size + 1` entries
when the grouping has more distinct URLs than `report_size`, because
the `if i == max_size: break` test runs after the append.  On the
grouping `{a: [2], b: [1]}` (already ordered by descending total time)
with `lineCount = 2`, `totalDuration = 3` and `report_size = 1`, the
result has 2 entries instead of the 1 the claim (and the function's
own docstring) prescribe. -/
theorem calc_stat_truncation_off_by_one :
    ((calc_stat [("a", [(2 : ℚ)]), ("b", [(1 : ℚ)])] 2 3 1).getD []).length = 2 := rfl

/-! ### Claim C8: aggregator totals invariant -/

/-- Total of all durations stored in a grouping, across all URLs. -/
def sumOfSums (g : List (String × List ℚ)) : ℚ := (g.map (fun e => e.2.sum)).sum

/-- Unfolding of `parseLogStep` on a line with a truthy URL. -/
lemma parseLogStep_truthy (st : ParseState) (line : String)
    (ht : truthy (parse_line line).1) :
    parseLogStep st line =
      { st with
        count := st.count + 1,
        all_time := st.all_time + (parse_line line).2.getD 0,
        data := appendDuration st.data ((parse_line line).1.getD "")
          ((parse_line line).2.getD 0) } := by
  simp [parseLogStep, ht]

/-- Unfolding of `parseLogStep` on a line without a truthy URL. -/
lemma parseLogStep_falsy (st : ParseState) (line : String)
    (ht : ¬ truthy (parse_line line).1) :
    parseLogStep st line =
      { st with count := st.count + 1, error_count := st.error_count + 1 } := by
  simp [parseLogStep, ht]

/-- Appending a duration to a grouping adds it to the total. -/
lemma appendDuration_sum (data : List (String × List ℚ)) (u : String) (d : ℚ) :
    sumOfSums (appendDuration data u d) = sumOfSums data + d := by
  induction data with
  | nil => simp [appendDuration, sumOfSums]
  | cons kd rest ih =>
      obtain ⟨k, ds⟩ := kd
      by_cases h : k = u
      · simp [appendDuration, h, sumOfSums, List.sum_append]
        ring
      · simp only [appendDuration, if_neg h, sumOfSums, List.map_cons, List.sum_cons] at ih ⊢
        rw [ih]
        ring

/-- One loop step preserves the totals invariant. -/
lemma parseLogStep_invariant (st : ParseState) (line : String)
    (h1 : st.error_count ≤ st.count)
    (h2 : st.all_time = sumOfSums st.data) :
    (parseLogStep st line).error_count ≤ (parseLogStep st line).count ∧
    (parseLogStep st line).all_time = sumOfSums (parseLogStep st line).data := by
  by_cases ht : truthy (parse_line line).1
  · rw [parseLogStep_truthy st line ht]
    refine ⟨by simpa using Nat.le_succ_of_le h1, ?_⟩
    show st.all_time + (parse_line line).2.getD 0 = sumOfSums (appendDuration st.data _ _)
    rw [appendDuration_sum, h2]
  · rw [parseLogStep_falsy st line ht]
    exact ⟨by simpa using h1, h2⟩

/-- The whole loop preserves the totals invariant. -/
lemma foldl_invariant (lines : List String) :
    ∀ st : ParseState, st.error_count ≤ st.count → st.all_time = sumOfSums st.data →
      (lines.foldl parseLogStep st).error_count ≤ (lines.foldl parseLogStep st).count ∧
      (lines.foldl parseLogStep st).all_time = sumOfSums (lines.foldl parseLogStep st).data := by
  induction lines with
  | nil => intro st h1 h2; exact ⟨h1, h2⟩
  | cons l rest ih =>
      intro st h1 h2
      have h := parseLogStep_invariant st l h1 h2
      exact ih _ h.1 h.2

/-- Claim C8: after consuming any line stream, `parse_log` emits
totals with `errorCount ≤ lineCount` and `totalDurationSeconds` equal
to the sum of all durations stored in the grouping, and a line that
fails to parse leaves the grouping and the running total untouched
while incrementing `count` and `error_count`. -/
theorem parse_log_totals_invariant (lines : List String) :
    (parse_log lines).2.2.2 ≤ (parse_log lines).2.2.1 ∧
    (parse_log lines).2.1 = sumOfSums (parse_log lines).1 ∧
    (∀ st line, (parse_line line).1 = none →
      (parseLogStep st line).data = st.data ∧
      (parseLogStep st line).all_time = st.all_time ∧
      (parseLogStep st line).count = st.count + 1 ∧
      (parseLogStep st line).error_count = st.error_count + 1) := by
  have base := foldl_invariant lines ⟨[], 0, 0, 0⟩ (le_refl 0) (by simp [sumOfSums])
  refine ⟨?_, ?_, ?_⟩
  · simp only [parse_log]
    exact base.1
  · simp only [parse_log]
    rw [base.2]
    have hperm := List.perm_insertionSort byTimeDesc
      ((lines.foldl parseLogStep ⟨[], 0, 0, 0⟩).data)
    unfold sumOfSums
    exact ((hperm.map (fun e => e.2.sum)).sum_eq).symm
  · intro st line h
    have ht : ¬ truthy (parse_line line).1 := by rw [h]; simp [truthy]
    rw [parseLogStep_falsy st line ht]
    exact ⟨rfl, rfl, rfl, rfl⟩

/-- Witness for C8: the invariant and the untouched-grouping property
evaluated on the one-line stream `["x"]`. -/
theorem parse_log_totals_invariant_witness :
    (parse_log ["x"]).2.2.2 ≤ (parse_log ["x"]).2.2.1 ∧
    (parseLogStep ⟨[], 0, 0, 0⟩ "x").data = [] :=
  ⟨(parse_log_totals_invariant ["x"]).1,
   ((parse_log_totals_invariant ["x"]).2.2 ⟨[], 0, 0, 0⟩ "x" rfl).1⟩

/-! ### Claim C5: log file selection -/

/-- Reflexivity of the lexicographic comparison. -/
lemma lexLeChars_refl : ∀ as : List Char, lexLeChars as as = true := by
  intro as
  induction as with
  | nil => rfl
  | cons a t ih => simp [lexLeChars, ih]

/-- Totality of the lexicographic comparison. -/
lemma lexLeChars_total : ∀ as bs : List Char,
    lexLeChars as bs = true ∨ lexLeChars bs as = true := by
  intro as
  induction as with
  | nil => intro bs; left; rfl
  | cons a as ih =>
      intro bs
      cases bs with
      | nil => right; rfl
      | cons b bs =>
          rcases Nat.lt_trichotomy a.toNat b.toNat with h | h | h
          · left; simp [lexLeChars, h]
          · have h1 : ¬ a.toNat < b.toNat := by omega
            have h2 : ¬ b.toNat < a.toNat := by omega
            rcases ih bs with hc | hc
            · left; simp [lexLeChars, h1, h2, hc]
            · right; simp [lexLeChars, h1, h2, hc]
          · right; simp [lexLeChars, h]

/-- Transitivity of the lexicographic comparison. -/
lemma lexLeChars_trans : ∀ as bs cs : List Char,
    lexLeChars as bs = true → lexLeChars bs cs = true → lexLeChars as cs = true := by
  intro as
  induction as with
  | nil => intro bs cs h1 h2; rfl
  | cons a as ih =>
      intro bs cs h1 h2
      cases bs with
      | nil => simp [lexLeChars] at h1
      | cons b bs =>
          cases cs with
          | nil => simp [lexLeChars] at h2
          | cons c cs =>
              rcases Nat.lt_trichotomy a.toNat b.toNat with hab | hab | hab
              · rcases Nat.lt_trichotomy b.toNat c.toNat with hbc | hbc | hbc
                · simp [lexLeChars, show a.toNat < c.toNat by omega]
                · simp [lexLeChars, show a.toNat < c.toNat by omega]
                · simp [lexLeChars, show ¬ b.toNat < c.toNat by omega, hbc] at h2
              · rcases Nat.lt_trichotomy b.toNat c.toNat with hbc | hbc | hbc
                · simp [lexLeChars, show a.toNat < c.toNat by omega]
                · have hnab : ¬ a.toNat < b.toNat := by omega
                  have hnba : ¬ b.toNat < a.toNat := by omega
                  have hnbc : ¬ b.toNat < c.toNat := by omega
                  have hncb : ¬ c.toNat < b.toNat := by omega
                  simp only [lexLeChars, if_neg hnab, if_neg hnba] at h1
                  simp only [lexLeChars, if_neg hnbc, if_neg hncb] at h2
                  simp only [lexLeChars, if_neg (show ¬ a.toNat < c.toNat by omega),
                    if_neg (show ¬ c.toNat < a.toNat by omega)]
                  exact ih bs cs h1 h2
                · simp [lexLeChars, show ¬ b.toNat < c.toNat by omega, hbc] at h2
              · simp [lexLeChars, show ¬ a.toNat < b.toNat by omega, hab] at h1

/-- Date comparison is reflexive. -/
lemma dateGeB_refl (a : LogRow) : dateGeB a a = true := lexLeChars_refl _

/-- Date comparison is total. -/
lemma dateGeB_total (a b : LogRow) : dateGeB a b = true ∨ dateGeB b a = true :=
  lexLeChars_total _ _

/-- Date comparison is transitive. -/
lemma dateGeB_trans {a b c : LogRow} (h1 : dateGeB a b = true)
    (h2 : dateGeB b c = true) : dateGeB a c = true :=
  lexLeChars_trans _ _ _ h2 h1

/-- Unfolding of `firstMaxByDate` when the tail has no maximum. -/
lemma firstMaxByDate_cons_none {t : List LogRow} {a : LogRow}
    (h : firstMaxByDate t = none) : firstMaxByDate (a :: t) = some a := by
  simp [firstMaxByDate, h]

/-- Unfolding of `firstMaxByDate` when the tail has maximum `b`. -/
lemma firstMaxByDate_cons_some {t : List LogRow} {a b : LogRow}
    (h : firstMaxByDate t = some b) :
    firstMaxByDate (a :: t) = if dateGeB a b = true then some a else some b := by
  simp [firstMaxByDate, h]

/-- `firstMaxByDate` returns nothing exactly on the empty list. -/
lemma firstMax_eq_none {l : List LogRow} : firstMaxByDate l = none ↔ l = [] := by
  cases l with
  | nil => simp [firstMaxByDate]
  | cons a t =>
      cases h : firstMaxByDate t with
      | none => simp [firstMaxByDate_cons_none h]
      | some b =>
          rw [firstMaxByDate_cons_some h]
          by_cases hd : dateGeB a b = true <;> simp [hd]

/-- The selected row is one of the candidates. -/
lemma firstMax_mem : ∀ {l : List LogRow} {r}, firstMaxByDate l = some r → r ∈ l := by
  intro l
  induction l with
  | nil => intro r h; simp [firstMaxByDate] at h
  | cons a t ih =>
      intro r h
      cases hm : firstMaxByDate t with
      | none =>
          rw [firstMaxByDate_cons_none hm] at h
          obtain rfl : a = r := Option.some.inj h
          exact List.mem_cons_self _ _
      | some b =>
          rw [firstMaxByDate_cons_some hm] at h
          by_cases hd : dateGeB a b = true
          · rw [if_pos hd] at h
            obtain rfl : a = r := Option.some.inj h
            exact List.mem_cons_self _ _
          · rw [if_neg hd] at h
            obtain rfl : b = r := Option.some.inj h
            exact List.mem_cons_of_mem _ (ih hm)

/-- The selected row's date is greatest among the candidates. -/
lemma firstMax_ge : ∀ {l : List LogRow} {r}, firstMaxByDate l = some r →
    ∀ c ∈ l, dateGeB r c = true := by
  intro l
  induction l with
  | nil => intro r h; simp [firstMaxByDate] at h
  | cons a t ih =>
      intro r h c hc
      cases hm : firstMaxByDate t with
      | none =>
          rw [firstMaxByDate_cons_none hm] at h
          obtain rfl : a = r := Option.some.inj h
          have ht : t = [] := firstMax_eq_none.mp hm
          subst ht
          rcases List.mem_cons.mp hc with rfl | hc'
          · exact dateGeB_refl _
          · simp at hc'
      | some b =>
          rw [firstMaxByDate_cons_some hm] at h
          by_cases hd : dateGeB a b = true
          · rw [if_pos hd] at h
            obtain rfl : a = r := Option.some.inj h
            rcases List.mem_cons.mp hc with rfl | hc'
            · exact dateGeB_refl _
            · exact dateGeB_trans hd (ih hm c hc')
          · rw [if_neg hd] at h
            obtain rfl : b = r := Option.some.inj h
            rcases List.mem_cons.mp hc with rfl | hc'
            · rcases dateGeB_total b c with hbc | hcb
              · exact hbc
              · exact absurd hcb hd
            · exact ih hm c hc'

/-- Candidates listed before the selected row have strictly smaller
dates: the selection is first-seen-wins among equal dates. -/
lemma firstMax_first : ∀ {l : List LogRow} {r}, firstMaxByDate l = some r →
    ∃ l1 l2, l = l1 ++ r :: l2 ∧ ∀ c ∈ l1, dateGeB c r = false := by
  intro l
  induction l with
  | nil => intro r h; simp [firstMaxByDate] at h
  | cons a t ih =>
      intro r h
      cases hm : firstMaxByDate t with
      | none =>
          rw [firstMaxByDate_cons_none hm] at h
          obtain rfl : a = r := Option.some.inj h
          exact ⟨[], t, rfl, by simp⟩
      | some b =>
          rw [firstMaxByDate_cons_some hm] at h
          by_cases hd : dateGeB a b = true
          · rw [if_pos hd] at h
            obtain rfl : a = r := Option.some.inj h
            exact ⟨[], t, rfl, by simp⟩
          · rw [if_neg hd] at h
            obtain rfl : b = r := Option.some.inj h
            obtain ⟨l1, l2, heq, hall⟩ := ih hm
            refine ⟨a :: l1, l2, by rw [heq]; rfl, ?_⟩
            intro c hc
            rcases List.mem_cons.mp hc with rfl | hc'
            · simpa using hd
            · exact hall c hc'

/-- Head of the stable descending sort is the first candidate with the
greatest date. -/
lemma head_insertionSort_eq_firstMax (l : List LogRow) :
    (List.insertionSort (fun a b => dateGeB a b = true) l).head? = firstMaxByDate l := by
  induction l with
  | nil => rfl
  | cons a t ih =>
      show (List.orderedInsert _ a (List.insertionSort _ t)).head? = _
      cases hs : List.insertionSort (fun a b => dateGeB a b = true) t with
      | nil =>
          have ht : t = [] := by
            have hp := List.perm_insertionSort (fun a b => dateGeB a b = true) t
            rw [hs] at hp
            exact List.perm_nil.mp hp.symm
          subst ht
          rfl
      | cons b bs =>
          have hfm : firstMaxByDate t = some b := by
            rw [← ih, hs]
            rfl
          rw [firstMaxByDate_cons_some hfm]
          by_cases hd : dateGeB a b = true
          · simp [List.orderedInsert, hd]
          · simp [List.orderedInsert, hd]

/-- Counterexample for C5: with two matching entries of equal date
(plain first, gzipped last in scan order), `find_log_files` selects
the FIRST-seen entry, not the last-seen one the claim asserts. -/
theorem find_log_files_tie_last_seen_counterexample :
    rowOf "log/" "rep/" "nginx-access-ui.log-20170630.gz" =
      some ⟨"20170630", "log/nginx-access-ui.log-20170630.gz",
        "rep/report-2017.06.30.html", true⟩ ∧
    find_log_files true true tieListing (fun _ => false) "log/" "rep/" =
      FindResult.found ⟨"20170630", "log/nginx-access-ui.log-20170630",
        "rep/report-2017.06.30.html", false⟩ ∧
    find_log_files true true tieListing (fun _ => false) "log/" "rep/" ≠
      FindResult.found ⟨"20170630", "log/nginx-access-ui.log-20170630.gz",
        "rep/report-2017.06.30.html", true⟩ :=
  ⟨by decide, by decide, by decide⟩

/-- Claim C5 (amended): among matching directory entries
`find_log_files` selects one with the greatest embedded date, with
ties broken FIRST-seen-wins during the scan (Python's stable sort
keeps the earlier entry in front); it returns the no-folder result
when a directory check fails and no candidate when no entry matches. -/
theorem find_log_files_selects_first_greatest_date (logOk repOk : Bool)
    (listing : List String) (rexists : String → Bool) (lf rf : String) :
    (logOk = false ∨ repOk = false →
        find_log_files logOk repOk listing rexists lf rf = FindResult.notAFolder) ∧
    (logOk = true → repOk = true → listing.filterMap (rowOf lf rf) = [] →
        find_log_files logOk repOk listing rexists lf rf = FindResult.noCandidate) ∧
    (∀ row, find_log_files logOk repOk listing rexists lf rf = FindResult.found row →
        row ∈ listing.filterMap (rowOf lf rf) ∧
        (∀ c ∈ listing.filterMap (rowOf lf rf), dateGeB row c = true) ∧
        (∃ l1 l2, listing.filterMap (rowOf lf rf) = l1 ++ row :: l2 ∧
            ∀ c ∈ l1, dateGeB c row = false) ∧
        rexists row.rep_file = false) := by
  refine ⟨?_, ?_, ?_⟩
  · intro h
    rcases h with h | h
    · subst h
      simp [find_log_files]
    · subst h
      cases logOk <;> simp [find_log_files]
  · intro h1 h2 hcand
    subst h1 h2
    simp [find_log_files, hcand]
  · intro row hf
    cases logOk with
    | false => simp [find_log_files] at hf
    | true =>
        cases repOk with
        | false => simp [find_log_files] at hf
        | true =>
            simp only [find_log_files] at hf
            cases hs : List.insertionSort (fun a b => dateGeB a b = true)
                (listing.filterMap (rowOf lf rf)) with
            | nil =>
                rw [hs] at hf
                simp at hf
            | cons best rest =>
                rw [hs] at hf
                simp only at hf
                by_cases hre : rexists best.rep_file = true
                · rw [if_pos hre] at hf
                  simp at hf
                · rw [if_neg hre] at hf
                  have hbr : best = row := by
                    have h := hf
                    simp at h
                    exact h
                  subst hbr
                  have hfm : firstMaxByDate (listing.filterMap (rowOf lf rf)) =
                      some best := by
                    rw [← head_insertionSort_eq_firstMax, hs]
                    rfl
                  exact ⟨firstMax_mem hfm, firstMax_ge hfm, firstMax_first hfm,
                    by simpa using hre⟩

/-- Witness for C5: a failing directory check yields the no-folder
result. -/
theorem find_log_files_selects_first_greatest_date_witness :
    find_log_files false true tieListing (fun _ => false) "log/" "rep/" =
      FindResult.notAFolder :=
  (find_log_files_selects_first_greatest_date false true tieListing
    (fun _ => false) "log/" "rep/").1 (Or.inl rfl)

end LogAnalyzer
